import Mathlib

/-!
Verification development for the chord-progression backend
(`src/backend/chord_engine.py`, `src/backend/timing_engine.py`,
`src/backend/synth_engine.py`, `src/backend/main.py`).

Python integers are modelled as `ℤ`, Python floats as exact rationals `ℚ`
(the float expressions in the source are pure arithmetic on small values),
raised `ValueError` or `HTTPException` as explicit error results, and the
background playback thread as an explicit trace-producing function whose
reads of the shared `is_playing` flag are supplied by an oracle
`flags : ℕ → Bool` (the value observed at the k-th read), which models an
arbitrary interleaving with concurrent `stop` requests.
-/

set_option maxRecDepth 8000

/-- Embedding of `ChordEngine` (`chord_engine.py`): the only state is the
base octave set by `__init__` (default 4). -/
structure ChordEngine where
  base_octave : ℤ
deriving DecidableEq

/-- `ChordEngine.CHORD_TYPES` (`chord_engine.py` lines 7-56): chord formulas
as semitone intervals from the root, in source order. -/
def ChordEngine.CHORD_TYPES : List (String × List ℤ) :=
  [("Major", [0, 4, 7]),
   ("Minor", [0, 3, 7]),
   ("Dim", [0, 3, 6]),
   ("Aug", [0, 4, 8]),
   ("Sus2", [0, 2, 7]),
   ("Sus4", [0, 5, 7]),
   ("7", [0, 4, 7, 10]),
   ("Maj7", [0, 4, 7, 11]),
   ("Min7", [0, 3, 7, 10]),
   ("Dim7", [0, 3, 6, 9]),
   ("Min7b5", [0, 3, 6, 10]),
   ("Aug7", [0, 4, 8, 10]),
   ("MinMaj7", [0, 3, 7, 11]),
   ("9", [0, 4, 7, 10, 14]),
   ("Maj9", [0, 4, 7, 11, 14]),
   ("Min9", [0, 3, 7, 10, 14]),
   ("Add9", [0, 4, 7, 14]),
   ("11", [0, 4, 7, 10, 14, 17]),
   ("Maj11", [0, 4, 7, 11, 14, 17]),
   ("Min11", [0, 3, 7, 10, 14, 17]),
   ("13", [0, 4, 7, 10, 14, 21]),
   ("Maj13", [0, 4, 7, 11, 14, 21]),
   ("Min13", [0, 3, 7, 10, 14, 21]),
   ("6", [0, 4, 7, 9]),
   ("Min6", [0, 3, 7, 9]),
   ("6/9", [0, 4, 7, 9, 14]),
   ("7b5", [0, 4, 6, 10]),
   ("7#5", [0, 4, 8, 10]),
   ("7b9", [0, 4, 7, 10, 13]),
   ("7#9", [0, 4, 7, 10, 15]),
   ("5", [0, 7])]

/-- `ChordEngine.NOTE_VALUES` (`chord_engine.py` lines 59-67): note names to
semitone values, flat aliases included. -/
def ChordEngine.NOTE_VALUES : List (String × ℤ) :=
  [("C", 0), ("C#", 1), ("Db", 1),
   ("D", 2), ("D#", 3), ("Eb", 3),
   ("E", 4),
   ("F", 5), ("F#", 6), ("Gb", 6),
   ("G", 7), ("G#", 8), ("Ab", 8),
   ("A", 9), ("A#", 10), ("Bb", 10),
   ("B", 11)]

/-- `ChordEngine.generate_chord` (`chord_engine.py` lines 78-107).
Checks `chord_type` membership first, then `root`, then computes
`base_midi = base_octave * 12 + NOTE_VALUES[root]` and adds each interval.
A raised `ValueError` is modelled as `Except.error` of its message. -/
def ChordEngine.generate_chord (e : ChordEngine) (root chord_type : String) :
    Except String (List ℤ) :=
  match ChordEngine.CHORD_TYPES.lookup chord_type with
  | none => .error ("Unknown chord type: " ++ chord_type)
  | some chord_formula =>
    match ChordEngine.NOTE_VALUES.lookup root with
    | none => .error ("Unknown root note: " ++ root)
    | some root_value =>
      let base_midi := e.base_octave * 12 + root_value
      .ok (chord_formula.map (fun interval => base_midi + interval))

/-- The local `note_names` list of `chord_to_note_names`
(`chord_engine.py` line 119). -/
def ChordEngine.note_names : List String :=
  -- the source writes these twelve names as one list literal
  ["C", "C#", "D", "D#", "E", "F"] ++ ["F#", "G", "G#", "A", "A#", "B"]

/-- `ChordEngine.chord_to_note_names` (`chord_engine.py` lines 109-127).
Python `//` is floor division (`Int.fdiv`) and `%` is non-negative modulo
(`Int.emod`); the f-string concatenates the name and the octave number. -/
def ChordEngine.chord_to_note_names (_e : ChordEngine) (midi_notes : List ℤ) :
    List String :=
  midi_notes.map (fun midi_note =>
    let octave := midi_note.fdiv 12 - 1
    let note_index := midi_note.emod 12
    ChordEngine.note_names.getD note_index.toNat "" ++ toString octave)

/-- `ChordEngine.get_available_roots` (`chord_engine.py` lines 133-135). -/
def ChordEngine.get_available_roots (_e : ChordEngine) : List String :=
  -- the source writes these twelve names as one list literal
  ["C", "C#", "D", "D#", "E", "F"] ++ ["F#", "G", "G#", "A", "A#", "B"]

/-- `ChordEngine.get_available_chord_types` (`chord_engine.py` lines 129-131). -/
def ChordEngine.get_available_chord_types (_e : ChordEngine) : List String :=
  ChordEngine.CHORD_TYPES.map Prod.fst

/-- Boolean check, over every root of `get_available_roots` and every
registered chord type, that the first note name produced by
`chord_to_note_names` on the output of `generate_chord` at base octave 4 is
the root followed by `"3"` (not `"4"`). -/
def first_name_octave3_check : Bool :=
  (ChordEngine.mk 4).get_available_roots.all fun root =>
    ChordEngine.CHORD_TYPES.all fun p =>
      match (ChordEngine.mk 4).generate_chord root p.1 with
      | .ok notes =>
        ((ChordEngine.mk 4).chord_to_note_names notes).headD "" == root ++ "3"
      | .error _ => false

/-- `ChordTiming` (`timing_engine.py` lines 10-15): a chord with its
duration in beats. -/
structure ChordTiming where
  root : String
  chord_type : String
  beats : ℤ
deriving DecidableEq

instance : Inhabited ChordTiming := ⟨⟨"", "", 0⟩⟩

/-- Embedding of `TimingEngine` state (`timing_engine.py`): the stored
`_bpm` and the derived `_seconds_per_beat`. Floats are modelled as exact
rationals. -/
structure TimingEngine where
  bpm : ℤ
  seconds_per_beat : ℚ
deriving DecidableEq

/-- `TimingEngine.__init__` (`timing_engine.py` lines 19-27): no range
validation; `60.0 / bpm` raises `ZeroDivisionError` exactly when
`bpm = 0`, modelled as an error result. -/
def TimingEngine.init (bpm : ℤ) : Except String TimingEngine :=
  if bpm = 0 then .error "float division by zero"
  else .ok { bpm := bpm, seconds_per_beat := 60 / (bpm : ℚ) }

/-- The `bpm` property setter (`timing_engine.py` lines 34-45): raises
`ValueError` (returned as `some` message, state unchanged) unless
`30 <= value <= 300`; otherwise stores the value and recomputes
`seconds_per_beat = 60 / value`. -/
def TimingEngine.bpm_set (te : TimingEngine) (value : ℤ) :
    TimingEngine × Option String :=
  if ¬(30 ≤ value ∧ value ≤ 300) then
    (te, some "BPM must be between 30 and 300")
  else
    ({ bpm := value, seconds_per_beat := 60 / (value : ℚ) }, none)

/-- `TimingEngine.beats_to_seconds` (`timing_engine.py` lines 52-65). -/
def TimingEngine.beats_to_seconds (te : TimingEngine) (beats : ℤ) : ℚ :=
  (beats : ℚ) * te.seconds_per_beat

/-- Total beat count of a progression, the `sum(chord.beats ...)` of
`get_progression_duration`. -/
def sumBeats (progression : List ChordTiming) : ℤ :=
  (progression.map ChordTiming.beats).sum

/-- `TimingEngine.get_progression_duration` (`timing_engine.py`
lines 79-90): sums the beats, then converts once. -/
def TimingEngine.get_progression_duration (te : TimingEngine)
    (progression : List ChordTiming) : ℚ :=
  te.beats_to_seconds (sumBeats progression)

/-- One `(start_time, duration, root, chord_type)` tuple of the schedule
produced by `TimingEngine.create_schedule`. -/
structure ScheduleEntry where
  start_time : ℚ
  duration : ℚ
  root : String
  chord_type : String
deriving DecidableEq

instance : Inhabited ScheduleEntry := ⟨⟨0, 0, "", ""⟩⟩

/-- The loop of `TimingEngine.create_schedule` (`timing_engine.py`
lines 106-119) with the running cursor `current_time` made explicit. -/
def TimingEngine.create_schedule_go (te : TimingEngine) (current_time : ℚ) :
    List ChordTiming → List ScheduleEntry
  | [] => []
  | chord_timing :: rest =>
    let duration := te.beats_to_seconds chord_timing.beats
    { start_time := current_time, duration := duration,
      root := chord_timing.root, chord_type := chord_timing.chord_type } ::
      te.create_schedule_go (current_time + duration) rest

/-- `TimingEngine.create_schedule` (`timing_engine.py` lines 92-119). -/
def TimingEngine.create_schedule (te : TimingEngine)
    (progression : List ChordTiming) : List ScheduleEntry :=
  te.create_schedule_go 0 progression

/-- Observable synthesizer calls made by the playback loop
(`synth_engine.py`: `play_chord` lines 76-100, `stop_all_notes`
lines 102-115). -/
inductive SynthEv where
  | playChord (notes : List ℤ) (duration : ℚ)
  | stopAll
deriving DecidableEq

/-- The `for` loop over the schedule inside `playback_worker`
(`main.py` lines 178-184). `flags k` is the value of
`playback_state["is_playing"]` observed at the k-th read; the result is
the trace of synthesizer calls, the next read index, and the message of a
`ValueError` escaping `generate_chord`, which propagates (there is no
`except` clause around the body). -/
def play_pass (e : ChordEngine) (flags : ℕ → Bool) :
    ℕ → List ScheduleEntry → List SynthEv × ℕ × Option String
  | k, [] => ([], k, none)
  | k, entry :: rest =>
    if flags k = false then ([], k + 1, none)
    else
      match e.generate_chord entry.root entry.chord_type with
      | .error msg => ([], k + 1, some msg)
      | .ok midi_notes =>
        let r := play_pass e flags (k + 1) rest
        (SynthEv.playChord midi_notes entry.duration :: r.1, r.2.1, r.2.2)

/-- The `while playback_state["is_playing"]` loop of `playback_worker`
(`main.py` lines 175-187), with explicit fuel bounding the number of loop
passes (the real loop can run forever when `loop_enabled` is true and no
stop arrives). Each pass rebuilds the schedule, plays it via `play_pass`,
propagates an escaped error, and exits when `loop_enabled` is false. -/
def playback_loop (e : ChordEngine) (te : TimingEngine)
    (progression : List ChordTiming) (loop_enabled : Bool)
    (flags : ℕ → Bool) : ℕ → ℕ → List SynthEv × ℕ × Option String
  | 0, k => ([], k, none)
  | fuel + 1, k =>
    if flags k = false then ([], k + 1, none)
    else
      let schedule := te.create_schedule progression
      let r := play_pass e flags (k + 1) schedule
      match r.2.2 with
      | some msg => (r.1, r.2.1, some msg)
      | none =>
        if loop_enabled = false then (r.1, r.2.1, none)
        else
          let r2 := playback_loop e te progression loop_enabled flags fuel r.2.1
          (r.1 ++ r2.1, r2.2.1, r2.2.2)

/-- `playback_worker` (`main.py` lines 173-192): runs the loop body under
`try`, and in `finally` sets `is_playing` to `False` (under the lock) and
calls `synth_engine.stop_all_notes()` — on every exit, error included.
Result: (synthesizer trace, final `is_playing`, escaped error if any). -/
def playback_worker (e : ChordEngine) (te : TimingEngine)
    (progression : List ChordTiming) (loop_enabled : Bool)
    (flags : ℕ → Bool) (fuel : ℕ) : List SynthEv × Bool × Option String :=
  let r := playback_loop e te progression loop_enabled flags fuel 0
  (r.1 ++ [SynthEv.stopAll], false, r.2.2)

/-- The mutable module-level state of `main.py` (lines 36-49): the shared
`TimingEngine` and the `playback_state` dict fields read/written by the
request handlers. -/
structure AppState where
  timing : TimingEngine
  is_playing : Bool
  current_progression : List ChordTiming
  loop_enabled : Bool
deriving DecidableEq

/-- Body of a validated `POST /play` request (`PlaybackRequest`,
`main.py` lines 71-75); the pydantic `ProgressionChord` fields coincide
with `ChordTiming`. -/
structure PlaybackRequest where
  progression : List ChordTiming
  bpm : ℤ
  loop : Bool
deriving DecidableEq

/-- `play_progression` (`main.py` lines 148-202), the state mutations of
the critical section made explicit. If `is_playing` is already set it
raises `HTTPException(409)` before touching anything; otherwise it sets
the tempo, records the progression and flags, and answers with the
progression duration. An escaping `ValueError` from the tempo setter is
a 500. Returns the resulting state together with the response. -/
def play_progression (st : AppState) (req : PlaybackRequest) :
    AppState × Except (ℕ × String) (String × ℚ × Bool) :=
  if st.is_playing then
    (st, .error (409, "Playback already in progress"))
  else
    let r := st.timing.bpm_set req.bpm
    match r.2 with
    | some msg => (st, .error (500, msg))
    | none =>
      let progression := req.progression
      let st' : AppState :=
        { timing := r.1, is_playing := true,
          current_progression := progression, loop_enabled := req.loop }
      (st', .ok ("playing", r.1.get_progression_duration progression, req.loop))

/-- `stop_playback` (`main.py` lines 205-219): 409 when idle; otherwise
clears `is_playing` (the synthesizer silence-all call follows outside the
lock). -/
def stop_playback (st : AppState) : AppState × Except (ℕ × String) String :=
  if ¬st.is_playing then
    (st, .error (409, "No playback in progress"))
  else
    ({ st with is_playing := false }, .ok "stopped")

/-- Lock-relevant actions performed by one code path of `main.py`:
acquiring/releasing `playback_lock` and writing
`playback_state["is_playing"]`. -/
inductive LockAct where
  | acq
  | rel
  | writeFlag (v : Bool)
deriving DecidableEq

/-- Lock actions of the `/play` critical section (`main.py`
lines 154-170): the write of `is_playing = True` happens inside
`with playback_lock`. -/
def play_lock_trace : List LockAct :=
  [.acq, .writeFlag true, .rel]

/-- Lock actions of the `/stop` critical section (`main.py`
lines 211-215). -/
def stop_lock_trace : List LockAct :=
  [.acq, .writeFlag false, .rel]

/-- Lock actions of the `finally` block of `playback_worker` (`main.py`
lines 189-191): `is_playing = False` inside `with playback_lock`. -/
def worker_cleanup_lock_trace : List LockAct :=
  [.acq, .writeFlag false, .rel]

/-- Lock actions of `shutdown_event` (`main.py` lines 232-236): it writes
`playback_state["is_playing"] = False` without acquiring `playback_lock`. -/
def shutdown_lock_trace : List LockAct :=
  [.writeFlag false]

/-- `writes_locked tr held` holds when every `writeFlag` in the action
trace `tr` occurs while the lock is held (`held` is the holding status at
the start of the trace). -/
def writes_locked : List LockAct → Bool → Bool
  | [], _ => true
  | .acq :: rest, _ => writes_locked rest true
  | .rel :: rest, _ => writes_locked rest false
  | .writeFlag _ :: rest, held => held && writes_locked rest held

/-- Program counter of one thread executing the `/play` critical section
(`main.py` lines 154-170), split into its atomic actions. -/
inductive StartPC where
  | entry
  | hasLock
  | passed
  | setDone
  | failed
  | finished
deriving DecidableEq

/-- Interleaving model of two concurrent `POST /play` requests racing on
`playback_lock` and `playback_state["is_playing"]` (`main.py`
lines 148-170). `lock` holds the identity of the holding thread
(`some false` = thread A, `some true` = thread B); `res` records each
thread's outcome (`some true` = proceeded to start playback,
`some false` = answered 409). -/
structure TwoStart where
  lock : Option Bool
  playing : Bool
  pcA : StartPC
  pcB : StartPC
  resA : Option Bool
  resB : Option Bool
deriving DecidableEq

/-- Initial state: lock free, nothing playing, both requests about to
enter the critical section. -/
def TwoStart.init : TwoStart :=
  { lock := none, playing := false, pcA := .entry, pcB := .entry,
    resA := none, resB := none }

/-- Atomic steps of the two racing `/play` requests: acquire the lock,
check `is_playing` (failing with 409 when set), perform the
`is_playing = True` transition, release the lock. The check and the set
are separate actions; only the lock makes them one critical section. -/
inductive StartStep : TwoStart → TwoStart → Prop where
  | acquireA (s : TwoStart) (h1 : s.lock = none) (h2 : s.pcA = .entry) :
      StartStep s { s with lock := some false, pcA := .hasLock }
  | checkA_busy (s : TwoStart) (h1 : s.lock = some false)
      (h2 : s.pcA = .hasLock) (h3 : s.playing = true) :
      StartStep s { s with pcA := .failed, resA := some false }
  | checkA_free (s : TwoStart) (h1 : s.lock = some false)
      (h2 : s.pcA = .hasLock) (h3 : s.playing = false) :
      StartStep s { s with pcA := .passed }
  | setA (s : TwoStart) (h1 : s.lock = some false) (h2 : s.pcA = .passed) :
      StartStep s { s with playing := true, pcA := .setDone, resA := some true }
  | releaseA (s : TwoStart) (h1 : s.lock = some false)
      (h2 : s.pcA = .setDone ∨ s.pcA = .failed) :
      StartStep s { s with lock := none, pcA := .finished }
  | acquireB (s : TwoStart) (h1 : s.lock = none) (h2 : s.pcB = .entry) :
      StartStep s { s with lock := some true, pcB := .hasLock }
  | checkB_busy (s : TwoStart) (h1 : s.lock = some true)
      (h2 : s.pcB = .hasLock) (h3 : s.playing = true) :
      StartStep s { s with pcB := .failed, resB := some false }
  | checkB_free (s : TwoStart) (h1 : s.lock = some true)
      (h2 : s.pcB = .hasLock) (h3 : s.playing = false) :
      StartStep s { s with pcB := .passed }
  | setB (s : TwoStart) (h1 : s.lock = some true) (h2 : s.pcB = .passed) :
      StartStep s { s with playing := true, pcB := .setDone, resB := some true }
  | releaseB (s : TwoStart) (h1 : s.lock = some true)
      (h2 : s.pcB = .setDone ∨ s.pcB = .failed) :
      StartStep s { s with lock := none, pcB := .finished }

/-- States reachable from `TwoStart.init` by interleaved atomic steps. -/
def StartReachable (s : TwoStart) : Prop :=
  Relation.ReflTransGen StartStep TwoStart.init s

/-- Inductive invariant of the two-start race. -/
def StartInv (s : TwoStart) : Prop :=
  (s.playing = false → s.resA ≠ some true ∧ s.resB ≠ some true) ∧
  (s.pcA = .passed → s.lock = some false ∧ s.playing = false) ∧
  (s.pcB = .passed → s.lock = some true ∧ s.playing = false) ∧
  (s.resA = some true → s.resB ≠ some true ∧ s.pcB ≠ .passed) ∧
  (s.resB = some true → s.resA ≠ some true ∧ s.pcA ≠ .passed)

theorem beats_to_seconds_zero (te : TimingEngine) :
    te.beats_to_seconds 0 = 0 := by
  simp [TimingEngine.beats_to_seconds]

theorem beats_to_seconds_add (te : TimingEngine) (a b : ℤ) :
    te.beats_to_seconds (a + b) =
      te.beats_to_seconds a + te.beats_to_seconds b := by
  simp [TimingEngine.beats_to_seconds]
  ring

theorem create_schedule_go_length (te : TimingEngine) :
    ∀ (l : List ChordTiming) (t : ℚ),
      (te.create_schedule_go t l).length = l.length := by
  intro l
  induction l with
  | nil => intro t; rfl
  | cons c rest ih =>
    intro t
    simp [TimingEngine.create_schedule_go, ih]

theorem create_schedule_go_getD (te : TimingEngine) :
    ∀ (l : List ChordTiming) (t : ℚ) (i : ℕ), i < l.length →
      (te.create_schedule_go t l).getD i default =
        { start_time := t + te.beats_to_seconds (sumBeats (l.take i)),
          duration := te.beats_to_seconds ((l.getD i default).beats),
          root := (l.getD i default).root,
          chord_type := (l.getD i default).chord_type } := by
  intro l
  induction l with
  | nil => intro t i h; simp at h
  | cons c rest ih =>
    intro t i h
    cases i with
    | zero =>
      simp [TimingEngine.create_schedule_go, sumBeats,
        TimingEngine.beats_to_seconds]
    | succ i =>
      have h' : i < rest.length := by simpa using h
      have hstep := ih (t + te.beats_to_seconds c.beats) i h'
      simp only [TimingEngine.create_schedule_go, List.getD_cons_succ,
        List.take_succ_cons] at *
      rw [hstep]
      have hsum : sumBeats (c :: rest.take i) =
          c.beats + sumBeats (rest.take i) := by
        simp [sumBeats]
      rw [hsum, beats_to_seconds_add, add_assoc]

theorem create_schedule_go_dur_sum (te : TimingEngine) :
    ∀ (l : List ChordTiming) (t : ℚ),
      ((te.create_schedule_go t l).map ScheduleEntry.duration).sum =
        te.beats_to_seconds (sumBeats l) := by
  intro l
  induction l with
  | nil => intro t; simp [TimingEngine.create_schedule_go, sumBeats,
      TimingEngine.beats_to_seconds]
  | cons c rest ih =>
    intro t
    have hsum : sumBeats (c :: rest) = c.beats + sumBeats rest := by
      simp [sumBeats]
    simp only [TimingEngine.create_schedule_go, List.map_cons, List.sum_cons,
      ih, hsum, beats_to_seconds_add]

theorem startInv_init : StartInv TwoStart.init := by
  refine ⟨?_, ?_, ?_, ?_, ?_⟩ <;> simp [TwoStart.init, StartInv]

theorem startInv_step {s s' : TwoStart} (hstep : StartStep s s')
    (hinv : StartInv s) : StartInv s' := by
  obtain ⟨I1, I2, I3, I4, I5⟩ := hinv
  cases hstep with
  | acquireA h1 h2 =>
    refine ⟨?_, ?_, ?_, ?_, ?_⟩ <;> intro hp <;> simp_all
  | checkA_busy h1 h2 h3 =>
    refine ⟨?_, ?_, ?_, ?_, ?_⟩ <;> intro hp <;> simp_all
  | checkA_free h1 h2 h3 =>
    refine ⟨?_, ?_, ?_, ?_, ?_⟩ <;> intro hp <;> simp_all
  | setA h1 h2 =>
    refine ⟨?_, ?_, ?_, ?_, ?_⟩ <;> intro hp <;> simp_all
  | releaseA h1 h2 =>
    refine ⟨?_, ?_, ?_, ?_, ?_⟩ <;> intro hp <;> simp_all
  | acquireB h1 h2 =>
    refine ⟨?_, ?_, ?_, ?_, ?_⟩ <;> intro hp <;> simp_all
  | checkB_busy h1 h2 h3 =>
    refine ⟨?_, ?_, ?_, ?_, ?_⟩ <;> intro hp <;> simp_all
  | checkB_free h1 h2 h3 =>
    refine ⟨?_, ?_, ?_, ?_, ?_⟩ <;> intro hp <;> simp_all
  | setB h1 h2 =>
    refine ⟨?_, ?_, ?_, ?_, ?_⟩ <;> intro hp <;> simp_all
  | releaseB h1 h2 =>
    refine ⟨?_, ?_, ?_, ?_, ?_⟩ <;> intro hp <;> simp_all

theorem startInv_reachable {s : TwoStart} (h : StartReachable s) :
    StartInv s := by
  induction h with
  | refl => exact startInv_init
  | tail hab hstep ih => exact startInv_step hstep ih

/-- Claim C1: the claim says `generate_chord("C", "Major")` on the default
engine (base octave 4) yields `[60, 64, 67]` named `["C4", "E4", "G4"]` —
as the source's own docstring states (`chord_engine.py` lines 89-92).
The code instead computes `base_midi = 4 * 12 + 0 = 48` and returns
`[48, 52, 55]`, which `chord_to_note_names` renders `["C3", "E3", "G3"]`:
the code contradicts its own documentation. -/
theorem c1_code_eval :
    (ChordEngine.mk 4).generate_chord "C" "Major" = .ok [48, 52, 55] ∧
    (ChordEngine.mk 4).chord_to_note_names [48, 52, 55] = ["C3", "E3", "G3"] ∧
    ¬(ChordEngine.mk 4).generate_chord "C" "Major" = .ok [60, 64, 67] := by
  refine ⟨rfl, rfl, ?_⟩
  intro h
  have h48 : (ChordEngine.mk 4).generate_chord "C" "Major" =
      Except.ok [48, 52, 55] := rfl
  have h2 : ([48, 52, 55] : List ℤ) = [60, 64, 67] :=
    Except.ok.inj (h48.symm.trans h)
  simp at h2

/-- Claim C2: the claim says the first pitch of every
`generate_chord(root, quality)` at base octave 4 names back to
`root ++ "4"`. Evaluating the code over every canonical sharp root and
every registered quality shows it names to `root ++ "3"` instead (the
first interval is always 0, so the first pitch is `48 + rootValue ≤ 59`,
whose octave is `59 // 12 - 1 = 3`). -/
theorem c2_first_name_octave3 : first_name_octave3_check = true := by rfl

/-- Claim C3: for every root in `NOTE_VALUES` and chord type in
`CHORD_TYPES`, `generate_chord` returns a list of the same length as the
quality's interval list whose i-th element is
`base_octave * 12 + rootValue + offset_i`, and it returns an error exactly
when the chord type or the root is not registered. -/
theorem c3_generate_chord_spec (e : ChordEngine) (root ct : String) :
    (∀ f rv, ChordEngine.CHORD_TYPES.lookup ct = some f →
       ChordEngine.NOTE_VALUES.lookup root = some rv →
       ∃ l, e.generate_chord root ct = .ok l ∧
         l.length = f.length ∧
         ∀ i, i < f.length →
           l.getD i 0 = e.base_octave * 12 + rv + f.getD i 0) ∧
    ((∃ msg, e.generate_chord root ct = .error msg) ↔
       ChordEngine.CHORD_TYPES.lookup ct = none ∨
       ChordEngine.NOTE_VALUES.lookup root = none) := by
  constructor
  · intro f rv hf hrv
    refine ⟨f.map (fun offset => e.base_octave * 12 + rv + offset), ?_, by simp, ?_⟩
    · simp [ChordEngine.generate_chord, hf, hrv]
    · intro i hi
      have hi' : i < (f.map (fun offset => e.base_octave * 12 + rv + offset)).length := by
        simpa using hi
      rw [List.getD_eq_getElem _ _ hi', List.getElem_map,
        List.getD_eq_getElem _ _ hi]
  · constructor
    · rintro ⟨msg, hmsg⟩
      unfold ChordEngine.generate_chord at hmsg
      cases hct : ChordEngine.CHORD_TYPES.lookup ct with
      | none => exact Or.inl rfl
      | some f =>
        cases hr : ChordEngine.NOTE_VALUES.lookup root with
        | none => exact Or.inr rfl
        | some rv => rw [hct, hr] at hmsg; simp at hmsg
    · intro h
      unfold ChordEngine.generate_chord
      rcases h with h | h
      · rw [h]; exact ⟨_, rfl⟩
      · cases hct : ChordEngine.CHORD_TYPES.lookup ct with
        | none => exact ⟨_, rfl⟩
        | some f => rw [h]; exact ⟨_, rfl⟩

/-- Witness for C3 at root `"C"`, chord type `"Major"`. -/
theorem c3_witness :
    ∃ l, (ChordEngine.mk 4).generate_chord "C" "Major" = .ok l ∧
      l.length = ([0, 4, 7] : List ℤ).length ∧
      ∀ i, i < ([0, 4, 7] : List ℤ).length →
        l.getD i 0 = (ChordEngine.mk 4).base_octave * 12 + 0 +
          ([0, 4, 7] : List ℤ).getD i 0 :=
  (c3_generate_chord_spec (ChordEngine.mk 4) "C" "Major").1 [0, 4, 7] 0 rfl rfl

/-- Claim C6: on every exit of the playback loop — natural non-loop
completion, observing a cleared `is_playing` flag, or an error escaping
mid-iteration — the worker's `finally` block leaves `is_playing` false and
the last synthesizer call is `stop_all_notes`. Quantified over every
engine, progression, loop flag, flag-read oracle, and pass bound, which
covers all three exit paths. -/
theorem c6_cleanup_on_all_paths (e : ChordEngine) (te : TimingEngine)
    (prog : List ChordTiming) (loopE : Bool) (flags : ℕ → Bool) (fuel : ℕ) :
    (playback_worker e te prog loopE flags fuel).2.1 = false ∧
    (playback_worker e te prog loopE flags fuel).1.getLast? =
      some SynthEv.stopAll := by
  refine ⟨rfl, ?_⟩
  unfold playback_worker
  simp

/-- Claim C7: a `POST /play` while `is_playing` is set answers 409 and
leaves the whole application state — progression, loop flag, `is_playing`
and the recorded tempo — exactly as it was. -/
theorem c7_start_while_playing (st : AppState) (req : PlaybackRequest)
    (h : st.is_playing = true) :
    play_progression st req =
      (st, .error (409, "Playback already in progress")) := by
  simp [play_progression, h]

/-- Witness for C7 at a concrete playing state. -/
theorem c7_witness :
    play_progression
        ⟨⟨120, 1/2⟩, true, [⟨"C", "Major", 4⟩], true⟩
        ⟨[⟨"G", "Major", 4⟩], 90, false⟩ =
      (⟨⟨120, 1/2⟩, true, [⟨"C", "Major", 4⟩], true⟩,
        .error (409, "Playback already in progress")) :=
  c7_start_while_playing _ _ rfl

/-- Claim C8: the BPM setter errors exactly when the value is outside
`[30, 300]`; on error the stored engine is unchanged, and on success the
stored `bpm` is the new value and `seconds_per_beat = 60 / bpm`. -/
theorem c8_bpm_setter_spec (te : TimingEngine) (v : ℤ) :
    ((te.bpm_set v).2.isSome ↔ v < 30 ∨ 300 < v) ∧
    (v < 30 ∨ 300 < v → (te.bpm_set v).1 = te) ∧
    (30 ≤ v → v ≤ 300 →
      (te.bpm_set v).1.bpm = v ∧
      (te.bpm_set v).1.seconds_per_beat = 60 / (v : ℚ)) := by
  refine ⟨?_, ?_, ?_⟩
  · by_cases hc : 30 ≤ v ∧ v ≤ 300 <;> simp [TimingEngine.bpm_set, hc]
    omega
  · intro hv
    have hc : ¬(30 ≤ v ∧ v ≤ 300) := by omega
    simp [TimingEngine.bpm_set, hc]
  · intro h1 h2
    have hc : 30 ≤ v ∧ v ≤ 300 := ⟨h1, h2⟩
    simp [TimingEngine.bpm_set, hc]

/-- Witness for C8: a rejected value leaves the engine unchanged and an
accepted value stores the recomputed derived field. -/
theorem c8_witness :
    ((⟨120, 1/2⟩ : TimingEngine).bpm_set 400).1 = ⟨120, 1/2⟩ ∧
    ((⟨120, 1/2⟩ : TimingEngine).bpm_set 60).1.seconds_per_beat =
      60 / ((60 : ℤ) : ℚ) :=
  ⟨(c8_bpm_setter_spec ⟨120, 1/2⟩ 400).2.1 (by omega),
   ((c8_bpm_setter_spec ⟨120, 1/2⟩ 60).2.2 (by omega) (by omega)).2⟩

/-- Claim C9 counterexample: the claim says every transition of
`is_playing` happens inside the shared playback lock, but the shutdown
handler (`main.py` line 235) writes `is_playing = False` without
acquiring `playback_lock`. -/
theorem c9_counterexample :
    writes_locked shutdown_lock_trace false = false := by rfl

/-- Claim C9 amended: two interleaved `start` calls cannot both succeed —
the lock makes the check-then-set of `is_playing` one atomic critical
section — and the `is_playing` writes of `start`, `stop` and the worker's
cleanup are all inside the lock; only the shutdown handler's write is
outside it. -/
theorem c9_amended :
    (∀ s : TwoStart, StartReachable s →
       ¬(s.resA = some true ∧ s.resB = some true)) ∧
    writes_locked play_lock_trace false = true ∧
    writes_locked stop_lock_trace false = true ∧
    writes_locked worker_cleanup_lock_trace false = true := by
  refine ⟨?_, rfl, rfl, rfl⟩
  intro s hs hcontra
  have hinv := startInv_reachable hs
  exact (hinv.2.2.2.1 hcontra.1).1 hcontra.2

/-- Witness for C9 at the initial (reachable) state. -/
theorem c9_witness :
    ¬(TwoStart.init.resA = some true ∧ TwoStart.init.resB = some true) :=
  c9_amended.1 TwoStart.init Relation.ReflTransGen.refl

/-- Claim C10: the `TimingEngine` constructor does no range validation —
any nonzero bpm (29 and 1000 included) is accepted with
`seconds_per_beat = 60 / bpm`, and bpm 0 fails with a division-by-zero
error; only the setter enforces `[30, 300]`. -/
theorem c10_constructor_no_validation (bpm : ℤ) :
    (bpm ≠ 0 →
      TimingEngine.init bpm = .ok ⟨bpm, 60 / (bpm : ℚ)⟩) ∧
    TimingEngine.init 0 = .error "float division by zero" ∧
    TimingEngine.init 29 = .ok ⟨29, 60 / ((29 : ℤ) : ℚ)⟩ ∧
    TimingEngine.init 1000 = .ok ⟨1000, 60 / ((1000 : ℤ) : ℚ)⟩ := by
  refine ⟨?_, rfl, rfl, rfl⟩
  intro h
  simp [TimingEngine.init, h]

/-- Witness for C10 at a nonzero (negative) bpm. -/
theorem c10_witness :
    TimingEngine.init (-5) = .ok ⟨-5, 60 / ((-5 : ℤ) : ℚ)⟩ :=
  (c10_constructor_no_validation (-5)).1 (by decide)

theorem sumBeats_take_succ :
    ∀ (l : List ChordTiming) (i : ℕ), i < l.length →
      sumBeats (l.take (i + 1)) =
        sumBeats (l.take i) + (l.getD i default).beats := by
  intro l
  induction l with
  | nil => intro i h; simp at h
  | cons c rest ih =>
    intro i h
    cases i with
    | zero => simp [sumBeats]
    | succ i =>
      have h' : i < rest.length := by simpa using h
      have hrec := ih i h'
      simp only [List.take_succ_cons, List.getD_cons_succ]
      simp only [sumBeats, List.map_cons, List.sum_cons] at hrec ⊢
      omega

/-- Claim C4: for a progression of positive beat counts and a tempo in
`[30, 300]`, `create_schedule` yields one entry per progression entry in
order; `start_time` 0 is 0, each next start time is the previous start
plus its duration, each duration is `beats * seconds_per_beat`, the
durations sum to `get_progression_duration`, which is the total beat
count times `seconds_per_beat`; the empty progression yields the empty
schedule and zero duration. Floats are modelled as exact rationals. -/
theorem c4_create_schedule_spec (bpm : ℤ) (te : TimingEngine)
    (prog : List ChordTiming)
    (_h30 : 30 ≤ bpm) (_h300 : bpm ≤ 300)
    (_hinit : TimingEngine.init bpm = .ok te)
    (_hpos : ∀ c ∈ prog, 0 < c.beats) :
    (te.create_schedule prog).length = prog.length ∧
    (∀ i, i < prog.length →
      ((te.create_schedule prog).getD i default).root =
        (prog.getD i default).root ∧
      ((te.create_schedule prog).getD i default).chord_type =
        (prog.getD i default).chord_type ∧
      ((te.create_schedule prog).getD i default).duration =
        ((prog.getD i default).beats : ℚ) * te.seconds_per_beat) ∧
    (0 < prog.length →
      ((te.create_schedule prog).getD 0 default).start_time = 0) ∧
    (∀ i, i + 1 < prog.length →
      ((te.create_schedule prog).getD (i + 1) default).start_time =
        ((te.create_schedule prog).getD i default).start_time +
        ((te.create_schedule prog).getD i default).duration) ∧
    ((te.create_schedule prog).map ScheduleEntry.duration).sum =
      te.get_progression_duration prog ∧
    te.get_progression_duration prog =
      (sumBeats prog : ℚ) * te.seconds_per_beat ∧
    (prog = [] → te.create_schedule prog = [] ∧
      te.get_progression_duration prog = 0) := by
  refine ⟨?_, ?_, ?_, ?_, ?_, ?_, ?_⟩
  · exact create_schedule_go_length te prog 0
  · intro i hi
    rw [TimingEngine.create_schedule, create_schedule_go_getD te prog 0 i hi]
    exact ⟨rfl, rfl, rfl⟩
  · intro hlen
    rw [TimingEngine.create_schedule, create_schedule_go_getD te prog 0 0 hlen]
    simp [sumBeats, beats_to_seconds_zero]
  · intro i hi
    have hi' : i < prog.length := by omega
    rw [TimingEngine.create_schedule,
      create_schedule_go_getD te prog 0 (i + 1) hi,
      create_schedule_go_getD te prog 0 i hi']
    simp only
    rw [sumBeats_take_succ prog i hi', beats_to_seconds_add]
    ring
  · exact create_schedule_go_dur_sum te prog 0
  · rfl
  · intro h
    subst h
    exact ⟨rfl, by simp [TimingEngine.get_progression_duration, sumBeats,
      TimingEngine.beats_to_seconds]⟩

/-- Witness for C4 at 120 BPM with a two-chord progression. -/
theorem c4_witness :
    ((⟨120, 60 / ((120 : ℤ) : ℚ)⟩ : TimingEngine).create_schedule
        [⟨"C", "Major", 4⟩, ⟨"G", "Major", 4⟩]).length =
      ([⟨"C", "Major", 4⟩, ⟨"G", "Major", 4⟩] : List ChordTiming).length :=
  (c4_create_schedule_spec 120 ⟨120, 60 / ((120 : ℤ) : ℚ)⟩
    [⟨"C", "Major", 4⟩, ⟨"G", "Major", 4⟩]
    (by decide) (by decide) rfl (by decide)).1

/-- Claim C5 counterexample: a progression whose first chord has the
unknown root `"X"` followed by a valid C major chord, played without
looping and never stopped. The claim says the loop skips the bad entry
and plays the C major chord; the code instead lets the `ValueError`
escape: the trace holds no `playChord` at all — only the cleanup's
`stop_all_notes` — and the error terminates the session. -/
theorem c5_counterexample :
    playback_worker (ChordEngine.mk 4) ⟨120, 1/2⟩
        [⟨"X", "Major", 4⟩, ⟨"C", "Major", 4⟩] false (fun _ => true) 1 =
      ([SynthEv.stopAll], false, some "Unknown root note: X") := by rfl

/-- Claim C5 amended: when chord generation fails for a schedule entry,
the error propagates out of the playing pass — entries before the failing
one are played, the failing entry and everything after it are not, and
the pass ends with the error (which terminates the worker's loop). -/
theorem c5_error_propagates (e : ChordEngine) (flags : ℕ → Bool) (k : ℕ)
    (pre : List ScheduleEntry) (entry : ScheduleEntry)
    (rest : List ScheduleEntry) (msg : String)
    (hflags : ∀ j, flags j = true)
    (hpre : ∀ p ∈ pre, ∃ notes,
      e.generate_chord p.root p.chord_type = .ok notes)
    (hbad : e.generate_chord entry.root entry.chord_type = .error msg) :
    ∃ evs, play_pass e flags k (pre ++ entry :: rest) =
      (evs, k + pre.length + 1, some msg) ∧ evs.length = pre.length := by
  induction pre generalizing k with
  | nil =>
    refine ⟨[], ?_, rfl⟩
    simp [play_pass, hflags k, hbad]
  | cons p ps ih =>
    obtain ⟨notes, hok⟩ := hpre p (List.mem_cons_self p ps)
    obtain ⟨evs, heq, hlen⟩ :=
      ih (k + 1) (fun q hq => hpre q (List.mem_cons_of_mem p hq))
    refine ⟨SynthEv.playChord notes p.duration :: evs, ?_, by simp [hlen]⟩
    have hcond : (flags k = false) = False := by simp [hflags k]
    simp only [List.cons_append, play_pass, hcond, if_false, hok]
    rw [show List.append ps (entry :: rest) = ps ++ entry :: rest from rfl, heq]
    simp only [Prod.mk.injEq, List.length_cons, true_and, and_true]
    omega

/-- Witness for C5 with one valid entry before the failing one. -/
theorem c5_witness :
    ∃ evs, play_pass (ChordEngine.mk 4) (fun _ => true) 0
        ([⟨0, 2, "C", "Major"⟩] ++ ⟨2, 2, "X", "Major"⟩ :: []) =
      (evs, 0 + [(⟨0, 2, "C", "Major"⟩ : ScheduleEntry)].length + 1,
        some "Unknown root note: X") ∧
      evs.length = [(⟨0, 2, "C", "Major"⟩ : ScheduleEntry)].length :=
  c5_error_propagates (ChordEngine.mk 4) (fun _ => true) 0
    [⟨0, 2, "C", "Major"⟩] ⟨2, 2, "X", "Major"⟩ [] "Unknown root note: X"
    (fun _ => rfl)
    (fun p hp => by
      simp only [List.mem_singleton] at hp
      subst hp
      exact ⟨[48, 52, 55], rfl⟩)
    rfl
